import Mathlib

/-!
Shallow embedding of the caramuru tree-walking interpreter
(src/main.rs): the AST term grammar, the runtime value model, the call
stack with its dynamically scoped variable resolution, and the
recursive evaluator.  Rust panics are modelled as `Except.error`; the
shared mutable call stack and the console output are threaded
explicitly through every evaluation step; the `todo!()` stubs of the
source are modelled as the distinguished error `Err.todo`.  Recursion
through function calls is not structurally terminating, so every
evaluation function takes a fuel parameter and burns one unit on
entry (`Err.outOfFuel` when exhausted); machine integers (isize) are
modelled as unbounded `Int` (overflow behaviour is outside the model).
-/

namespace Caramuru

/-- Modelled from the spec: source location metadata carried by every
AST node (the `ast` module with `Location { start, end, filename }` is
not part of the evaluator source file).  The Rust field `end` is named
`stop` here because `end` is a Lean keyword. -/
structure Location where
  start : Nat
  stop : Nat
  filename : String
  deriving DecidableEq

instance : Inhabited Location := ⟨⟨0, 0, ""⟩⟩

/-- Modelled from the spec: the binary operator tags (`ast::BinaryOp`)
dispatched by `eval_binary_op`. -/
inductive BinaryOp where
  | add | sub | mul | div | rem | eq | neq | lt | gt | lte | gte | and | or
  deriving DecidableEq

/-- Modelled from the spec: the AST term grammar (`ast::Term`), a
closed tagged union; every node carries a source location.  Field
names follow the accesses made by src/main.rs (`x.value`, `x.text`,
`x.callee`, `x.arguments`, `x.op`, `x.lhs`, `x.rhs`, `x.name.text`,
`x.next`, `x.condition`, `x.then`, `x.otherwise`, `x.full_text`). -/
inductive Term where
  | int (value : Int) (location : Location)
  | str (value : String) (location : Location)
  | bool (value : Bool) (location : Location)
  | var (text : String) (location : Location)
  | binary (op : BinaryOp) (lhs : Term) (rhs : Term) (location : Location)
  | if_ (condition : Term) (thenBr : Term) (elseBr : Term) (location : Location)
  | let_ (name : String) (value : Term) (next : Term) (location : Location)
  | function (parameters : List String) (value : Term) (location : Location)
  | call (callee : Term) (arguments : List Term) (location : Location)
  | print (value : Term) (location : Location)
  | tuple (first : Term) (second : Term) (location : Location)
  | first (value : Term) (location : Location)
  | second (value : Term) (location : Location)
  | error (message : String) (full_text : String) (location : Location)

/-- The runtime value model (`enum RuntimeValue` in src/main.rs).  A
function value is a plain copy of the AST function node (parameters,
body, declaration location) and captures no environment. -/
inductive RuntimeValue where
  | int (x : Int)
  | str (x : String)
  | bool (x : Bool)
  | tuple (xs : List RuntimeValue)
  | function (parameters : List String) (value : Term) (location : Location)
  | void

/-- Discriminator: is the value an `Int`? -/
def RuntimeValue.isInt : RuntimeValue → Bool
  | .int _ => true
  | _ => false

/-- Discriminator: is the value a `Bool`? -/
def RuntimeValue.isBool : RuntimeValue → Bool
  | .bool _ => true
  | _ => false

/-- Discriminator: is the value a `Tuple`? -/
def RuntimeValue.isTuple : RuntimeValue → Bool
  | .tuple _ => true
  | _ => false

/-- Discriminator: is the value a `Function`? -/
def RuntimeValue.isFunction : RuntimeValue → Bool
  | .function _ _ _ => true
  | _ => false

/-- The failure conditions of the interpreter: every `panic!` site of
src/main.rs, the host-level panics (division or remainder by zero,
slice index out of bounds, usize underflow) and the `todo!()` stubs
get one constructor each; `outOfFuel` is the artefact of the fuel
parameter of the embedding. -/
inductive Err where
  | unbound (name : String)
  | calleeNotVar
  | notAFunction (name : String)
  | arity (name : String)
  | typeMismatch
  | condNotBool
  | divByZero
  | indexOutOfBounds
  | embedded (filename : String) (start : Nat) (text : String)
  | todo (site : String)
  | stackUnderflow
  | outOfFuel
  deriving DecidableEq

/-- A frame variable scope: the `HashMap<String, RuntimeValue>` of a
frame, modelled as an association list with unique keys (insertion
overwrites the previous entry for the key). -/
abbrev Scope := List (String × RuntimeValue)

/-- Key lookup in a frame scope. -/
def scope_lookup : Scope → String → Option RuntimeValue
  | [], _ => none
  | (k, v) :: rest, name => if k = name then some v else scope_lookup rest name

/-- `HashMap::insert`: the new entry replaces any previous entry for
the same key, keeping keys unique within the scope. -/
def scope_insert (s : Scope) (name : String) (v : RuntimeValue) : Scope :=
  (name, v) :: s.filter (fun p => p.1 != name)

/-- One call frame (`struct Call` in src/main.rs). -/
structure Call where
  callee : Option Term
  arguments : List Term
  location : Location
  var_scope : Scope

/-- The call stack (`struct CallStack`): the Rust Vec keeps its most
recent frame last and `get_var` scans it back to front; the list here
keeps the most recent frame first, so Vec push / pop / last element
correspond to list cons / tail / head and the scan of `get_var` is a
plain front-to-back scan. -/
abbrev CallStack := List Call

/-- The per-variant copy that `CallStack::get_var` performs on the
value it returns; the `Tuple` arm of the source is `todo!()`. -/
def clone_value : RuntimeValue → Except Err RuntimeValue
  | .int x => .ok (.int x)
  | .str x => .ok (.str x)
  | .bool x => .ok (.bool x)
  | .tuple _ => .error (.todo "get_var_clone_tuple")
  | .function ps v l => .ok (.function ps v l)
  | .void => .ok .void

/-- `CallStack::get_var`: scan the frames from the most recent to the
root and return a copy (`clone_value`) of the first binding found;
panic (here: error `unbound`) when no live frame binds the name. -/
def get_var : CallStack → String → Except Err RuntimeValue
  | [], name => .error (.unbound name)
  | frame :: rest, name =>
    match scope_lookup frame.var_scope name with
    | some v => clone_value v
    | none => get_var rest name

/-- `CallStack::set_var`: insert into the most recent frame; on an
empty stack the source computes `self.len() - 1` on a usize, which
panics by underflow, modelled as the `stackUnderflow` error. -/
def set_var : CallStack → String → RuntimeValue → Except Err CallStack
  | [], _, _ => .error .stackUnderflow
  | f :: rest, name, v =>
    .ok ({ f with var_scope := scope_insert f.var_scope name v } :: rest)

/-- `eval_binary_op` (src/main.rs lines 114 to 138): both operands
must be `Int` (anything else panics with the operand type mismatch);
division and remainder are the truncating (toward zero) isize
operations of Rust, whose host panic on a zero divisor is the
`divByZero` error here; the comparisons and the nonzero-truth logic
operators yield 1 or 0. -/
def eval_binary_op (op : BinaryOp) (l r : RuntimeValue) : Except Err Int :=
  match l with
  | .int l =>
    match r with
    | .int r =>
      match op with
      | .add => .ok (l + r)
      | .sub => .ok (l - r)
      | .mul => .ok (l * r)
      | .div => if r = 0 then .error .divByZero else .ok (l.tdiv r)
      | .rem => if r = 0 then .error .divByZero else .ok (l.tmod r)
      | .eq => .ok (if l = r then 1 else 0)
      | .neq => .ok (if l ≠ r then 1 else 0)
      | .lt => .ok (if l < r then 1 else 0)
      | .gt => .ok (if l > r then 1 else 0)
      | .lte => .ok (if l ≤ r then 1 else 0)
      | .gte => .ok (if l ≥ r then 1 else 0)
      | .and => .ok (if l ≠ 0 ∧ r ≠ 0 then 1 else 0)
      | .or => .ok (if l ≠ 0 ∨ r ≠ 0 then 1 else 0)
    | _ => .error .typeMismatch
  | _ => .error .typeMismatch

/-- The textual rendering used by `print_value` (`print!`, no trailing
newline): decimal integers, raw strings, `true` / `false`, and the
placeholder texts for tuples, functions and void. -/
def render : RuntimeValue → String
  | .int x => toString x
  | .str x => x
  | .bool x => if x then "true" else "false"
  | .tuple _ => "[tuple]"
  | .function _ _ _ => "[function]"
  | .void => "[void]"

/-- The outcome of one evaluation step: the produced value or the
panic that ended the run, together with the final call stack and the
console output accumulated so far.  Returning the stack also on the
error path mirrors the shared mutable `Rc<RefCell<...>>` stack of the
source, which keeps its state when a panic unwinds. -/
abbrev EvalResult := Except Err RuntimeValue × CallStack × String

/-- The frame that `call_fn` pushes (src/main.rs lines 98 to 103): the
source stores the unevaluated argument terms, a default `Str` term as
the callee, the location of the function value, and the scope built
from the parameters and the evaluated arguments. -/
def call_frame (args : List Term) (floc : Location) (scope : Scope) : Call :=
  { callee := some (.str "" default), arguments := args,
    location := floc, var_scope := scope }

mutual

/-- `eval` (src/main.rs lines 152 to 187): the recursive dispatcher
over one AST node.  `First`, `Second` and `Tuple` are `todo!()` in the
source.  Error propagation models panic unwinding: the rest of the
computation is skipped and the stack is returned as the panic left
it. -/
def eval : Nat → Term → CallStack → String → EvalResult
  | 0, _, st, out => (.error .outOfFuel, st, out)
  | n + 1, t, st, out =>
    match t with
    | .error _ ftext loc => (.error (.embedded loc.filename loc.start ftext), st, out)
    | .int v _ => (.ok (.int v), st, out)
    | .str v _ => (.ok (.str v), st, out)
    | .call callee args _ => call_fn n callee args st out
    | .binary op lhs rhs _ =>
      match eval n lhs st out with
      | (.ok lv, st1, out1) =>
        match eval n rhs st1 out1 with
        | (.ok rv, st2, out2) =>
          match eval_binary_op op lv rv with
          | .ok i => (.ok (.int i), st2, out2)
          | .error e => (.error e, st2, out2)
        | (.error e, st2, out2) => (.error e, st2, out2)
      | (.error e, st1, out1) => (.error e, st1, out1)
    | .function ps v loc => (.ok (.function ps v loc), st, out)
    | .let_ name value next _ =>
      match eval n value st out with
      | (.ok v, st1, out1) =>
        match set_var st1 name v with
        | .ok st2 => eval n next st2 out1
        | .error e => (.error e, st1, out1)
      | (.error e, st1, out1) => (.error e, st1, out1)
    | .if_ c tb eb _ =>
      match eval n c st out with
      | (.ok (.bool b), st1, out1) =>
        if b then eval n tb st1 out1 else eval n eb st1 out1
      | (.ok (.int y), st1, out1) =>
        if y ≠ 0 then eval n tb st1 out1 else eval n eb st1 out1
      | (.ok _, st1, out1) => (.error .condNotBool, st1, out1)
      | (.error e, st1, out1) => (.error e, st1, out1)
    | .print v _ => print_value n v st out
    | .first _ _ => (.error (.todo "first"), st, out)
    | .second _ _ => (.error (.todo "second"), st, out)
    | .bool v _ => (.ok (.bool v), st, out)
    | .tuple _ _ _ => (.error (.todo "tuple"), st, out)
    | .var x _ =>
      match get_var st x with
      | .ok v => (.ok v, st, out)
      | .error e => (.error e, st, out)

/-- `call_fn` (src/main.rs lines 78 to 112): the callee must be a bare
`Var`; its name must resolve to a `Function` value; the arity check
fires before any argument is evaluated; the arguments are evaluated
left to right against the caller stack, the new frame (whose `callee`
field the source fills with a default `Str` term) is pushed, the body
is evaluated against the extended stack, and the frame is popped on
the success path only — a panic in the body (or in an argument)
unwinds past the `pop` on line 110. -/
def call_fn : Nat → Term → List Term → CallStack → String → EvalResult
  | 0, _, _, st, out => (.error .outOfFuel, st, out)
  | n + 1, callee, args, st, out =>
    match callee with
    | .var name _ =>
      match get_var st name with
      | .ok (.function parameters value floc) =>
        if args.length ≠ parameters.length then
          (.error (.arity name), st, out)
        else
          match eval_args n args parameters [] st out with
          | (.ok scope, st1, out1) =>
            match eval n value (call_frame args floc scope :: st1) out1 with
            | (.ok r, st3, out3) => (.ok r, st3.tail, out3)
            | (.error e, st3, out3) => (.error e, st3, out3)
          | (.error e, st1, out1) => (.error e, st1, out1)
      | .ok _ => (.error (.notAFunction name), st, out)
      | .error e => (.error e, st, out)
    | _ => (.error .calleeNotVar, st, out)

/-- The argument loop of `call_fn` (src/main.rs lines 90 to 97): walk
the argument list left to right, pairing each argument with
`parameters[i]`, evaluating it against the current stack and inserting
the result into the fresh scope of the frame under construction.  An
argument list longer than the parameter list would make the source
index out of bounds (unreachable behind the arity check). -/
def eval_args : Nat → List Term → List String → Scope → CallStack → String →
    Except Err Scope × CallStack × String
  | 0, _, _, _, st, out => (.error .outOfFuel, st, out)
  | _ + 1, [], _, scope, st, out => (.ok scope, st, out)
  | _ + 1, _ :: _, [], _, st, out => (.error .indexOutOfBounds, st, out)
  | n + 1, a :: rest, p :: ps, scope, st, out =>
    match eval n a st out with
    | (.ok v, st1, out1) => eval_args n rest ps (scope_insert scope p v) st1 out1
    | (.error e, st1, out1) => (.error e, st1, out1)

/-- `print_value` (src/main.rs lines 140 to 150): evaluate the inner
expression, append its rendering to the output and return `Void`. -/
def print_value : Nat → Term → CallStack → String → EvalResult
  | 0, _, st, out => (.error .outOfFuel, st, out)
  | n + 1, v, st, out =>
    match eval n v st out with
    | (.ok x, st1, out1) => (.ok .void, st1, out1 ++ render x)
    | (.error e, st1, out1) => (.error e, st1, out1)

end

/-! ## General lemmas about the evaluator -/

/-- Two equal result triples have equal stack components. -/
theorem snd_fst_eq {α β γ : Type} {a b : α × β × γ} (h : a = b) : a.2.1 = b.2.1 := by
  rw [h]

/-- `set_var` never changes the number of frames. -/
theorem set_var_length {st : CallStack} {x : String} {v : RuntimeValue} {st2 : CallStack}
    (h : set_var st x v = .ok st2) : st2.length = st.length := by
  cases st with
  | nil => simp [set_var] at h
  | cons f rest => simp [set_var] at h; subst h; simp

/-- Frame balance: whenever any of the four evaluation functions
returns successfully, the final stack has exactly as many frames as
the initial one — every frame pushed during a successful evaluation
was popped again.  (On the error path this fails: `call_fn` pops only
after a successful body evaluation, because a panic unwinds past the
pop.)  Proved for all four functions simultaneously by induction on
the fuel. -/
theorem eval_ok_length_all : ∀ n : Nat,
    (∀ t st out v st2 out2, eval n t st out = (.ok v, st2, out2) → st2.length = st.length) ∧
    (∀ c args st out v st2 out2, call_fn n c args st out = (.ok v, st2, out2) → st2.length = st.length) ∧
    (∀ args ps sc st out s st2 out2, eval_args n args ps sc st out = (.ok s, st2, out2) → st2.length = st.length) ∧
    (∀ t st out v st2 out2, print_value n t st out = (.ok v, st2, out2) → st2.length = st.length) := by
  intro n
  induction n with
  | zero =>
    refine ⟨?_, ?_, ?_, ?_⟩
    · intro t st out v st2 out2 h; simp [eval] at h
    · intro c args st out v st2 out2 h; simp [call_fn] at h
    · intro args ps sc st out s st2 out2 h; simp [eval_args] at h
    · intro t st out v st2 out2 h; simp [print_value] at h
  | succ n ih =>
    obtain ⟨ihE, ihC, ihA, ihP⟩ := ih
    refine ⟨?_, ?_, ?_, ?_⟩
    · intro t st out v st2 out2 h
      cases t with
      | error m ft l => simp [eval] at h
      | int x l =>
        simp only [eval] at h
        have h2 : st = st2 := snd_fst_eq h
        exact (congrArg List.length h2).symm
      | str x l =>
        simp only [eval] at h
        have h2 : st = st2 := snd_fst_eq h
        exact (congrArg List.length h2).symm
      | bool x l =>
        simp only [eval] at h
        have h2 : st = st2 := snd_fst_eq h
        exact (congrArg List.length h2).symm
      | function ps bv l =>
        simp only [eval] at h
        have h2 : st = st2 := snd_fst_eq h
        exact (congrArg List.length h2).symm
      | first x l => simp [eval] at h
      | second x l => simp [eval] at h
      | tuple a b l => simp [eval] at h
      | var x l =>
        rcases hg : get_var st x with e | gv
        · simp [eval, hg] at h
        · simp only [eval, hg] at h
          have h2 : st = st2 := snd_fst_eq h
          exact (congrArg List.length h2).symm
      | call c args l =>
        simp only [eval] at h
        exact ihC _ _ _ _ _ _ _ h
      | print x l =>
        simp only [eval] at h
        exact ihP _ _ _ _ _ _ h
      | binary op lhs rhs l =>
        rcases hl : eval n lhs st out with ⟨el | lv, st1, o1⟩
        · simp [eval, hl] at h
        · rcases hr : eval n rhs st1 o1 with ⟨er | rv, stx, o2⟩
          · simp [eval, hl, hr] at h
          · rcases hb : eval_binary_op op lv rv with e | i
            · simp [eval, hl, hr, hb] at h
            · simp only [eval, hl, hr, hb] at h
              have h2 : stx = st2 := snd_fst_eq h
              have e1 := ihE _ _ _ _ _ _ hl
              have e2 := ihE _ _ _ _ _ _ hr
              rw [← h2]; omega
      | let_ name value next l =>
        rcases hv : eval n value st out with ⟨e | val, st1, o1⟩
        · simp [eval, hv] at h
        · rcases hs : set_var st1 name val with e | st1'
          · simp [eval, hv, hs] at h
          · simp only [eval, hv, hs] at h
            have e1 := ihE _ _ _ _ _ _ hv
            have e2 := set_var_length hs
            have e3 := ihE _ _ _ _ _ _ h
            omega
      | if_ c tb eb l =>
        rcases hc : eval n c st out with ⟨e | cv, st1, o1⟩
        · simp [eval, hc] at h
        · have e1 := ihE _ _ _ _ _ _ hc
          cases cv with
          | bool b =>
            simp only [eval, hc] at h
            cases b with
            | true => simp at h; have := ihE _ _ _ _ _ _ h; omega
            | false => simp at h; have := ihE _ _ _ _ _ _ h; omega
          | int y =>
            simp only [eval, hc] at h
            rcases eq_or_ne y 0 with hy | hy
            · subst hy; simp at h; have := ihE _ _ _ _ _ _ h; omega
            · rw [if_pos hy] at h; have := ihE _ _ _ _ _ _ h; omega
          | str s => simp [eval, hc] at h
          | tuple xs => simp [eval, hc] at h
          | function ps bv lf => simp [eval, hc] at h
          | void => simp [eval, hc] at h
    · intro c args st out v st2 out2 h
      simp only [call_fn] at h
      split at h
      · rename_i name lc
        rcases hg : get_var st name with e | gv
        · simp [hg] at h
        · cases gv with
          | function parameters bval floc =>
            simp only [hg] at h
            by_cases hlen : args.length = parameters.length
            · rw [if_neg (fun hne => hne hlen)] at h
              rcases ha : eval_args n args parameters [] st out with ⟨e | scope, st1, o1⟩
              · simp [ha] at h
              · simp only [ha] at h
                rcases hb : eval n bval (call_frame args floc scope :: st1) o1
                    with ⟨e | r, st3, o3⟩
                · simp [hb] at h
                · simp only [hb] at h
                  have h2 : st3.tail = st2 := snd_fst_eq h
                  have e1 := ihA _ _ _ _ _ _ _ _ ha
                  have e2 := ihE _ _ _ _ _ _ hb
                  have e3 : st3.tail.length = st3.length - 1 := by simp
                  simp only [List.length_cons] at e2
                  rw [← h2]; omega
            · rw [if_pos hlen] at h; simp at h
          | int x => simp [hg] at h
          | str x => simp [hg] at h
          | bool x => simp [hg] at h
          | tuple xs => simp [hg] at h
          | void => simp [hg] at h
      · simp at h
    · intro args ps sc st out s st2 out2 h
      cases args with
      | nil =>
        simp only [eval_args] at h
        have h2 : st = st2 := snd_fst_eq h
        exact (congrArg List.length h2).symm
      | cons a rest =>
        cases ps with
        | nil => simp [eval_args] at h
        | cons p ps' =>
          rcases he : eval n a st out with ⟨e | av, st1, o1⟩
          · simp [eval_args, he] at h
          · simp only [eval_args, he] at h
            have e1 := ihE _ _ _ _ _ _ he
            have e2 := ihA _ _ _ _ _ _ _ _ h
            omega
    · intro t st out v st2 out2 h
      rcases he : eval n t st out with ⟨e | x, st1, o1⟩
      · simp [print_value, he] at h
      · simp only [print_value, he] at h
        have h2 : st1 = st2 := snd_fst_eq h
        have := ihE _ _ _ _ _ _ he
        rw [← h2]; omega

/-! ## The claims -/

/-- A fixed location for concrete test terms. -/
def loc0 : Location := default

/-- Claim C1, counterexample: the claim says the frame pushed for a
call is popped on every exit path, including failure of the callee
body, so the stack afterwards holds exactly the frames it held before
the call.  On the concrete one-frame stack binding `f` to a function
whose body is the unbound variable `nope`, evaluating `Call(f)` fails
and leaves TWO frames on the stack: the pushed frame is not removed,
because the panic unwinds past the pop on line 110 of src/main.rs. -/
theorem C1_counterexample :
    (eval 9 (.call (.var "f" loc0) [] loc0)
        [⟨none, [], loc0, [("f", .function [] (.var "nope" loc0) loc0)]⟩] "").1 =
      .error (.unbound "nope") ∧
    ([⟨none, [], loc0, [("f", .function [] (.var "nope" loc0) loc0)]⟩] : CallStack).length = 1 ∧
    (eval 9 (.call (.var "f" loc0) [] loc0)
        [⟨none, [], loc0, [("f", .function [] (.var "nope" loc0) loc0)]⟩] "").2.1.length = 2 :=
  ⟨rfl, rfl, rfl⟩

/-- Claim C1, amended: for every Call evaluation that returns
SUCCESSFULLY, the pushed frame is popped before the call returns, so
the stack holds exactly as many frames as before the call; when the
callee body (or an argument) fails, the pushed frame is not popped —
the failure aborts the whole run with the frame still on the stack. -/
theorem C1_theorem : ∀ (fuel : Nat) (c : Term) (args : List Term) (l : Location)
    (st : CallStack) (out : String) (v : RuntimeValue) (st2 : CallStack) (out2 : String),
    eval fuel (.call c args l) st out = (.ok v, st2, out2) → st2.length = st.length :=
  fun fuel _ _ _ _ _ _ _ _ h => (eval_ok_length_all fuel).1 _ _ _ _ _ _ h

/-- Claim C1, witness: a concrete successful call (the identity
function applied to 41) satisfies the hypothesis of `C1_theorem`. -/
theorem C1_witness :
    ([⟨none, [], loc0, [("f", .function ["a"] (.var "a" loc0) loc0)]⟩] : CallStack).length =
    ([⟨none, [], loc0, [("f", .function ["a"] (.var "a" loc0) loc0)]⟩] : CallStack).length :=
  C1_theorem 9 (.var "f" loc0) [.int 41 loc0] loc0
    [⟨none, [], loc0, [("f", .function ["a"] (.var "a" loc0) loc0)]⟩] "" (.int 41)
    [⟨none, [], loc0, [("f", .function ["a"] (.var "a" loc0) loc0)]⟩] "" (by rfl)

/-- Claim C2: the claim says `First(Tuple(Int 1, Int 2))` evaluates to
`Int 1`, `Second(...)` to `Int 2`, and a non-tuple argument fails with
TypeMismatch.  The code instead hits the `todo!()` stubs of the
`First` and `Second` arms (src/main.rs lines 179 and 180) and panics
before even evaluating the inner expression: evaluating the claimed
round-trip terms yields the `todo` error, for every stack, output and
fuel. -/
theorem C2_theorem : ∀ (n : Nat) (st : CallStack) (out : String),
    eval (n + 1) (.first (.tuple (.int 1 loc0) (.int 2 loc0) loc0) loc0) st out =
      (.error (.todo "first"), st, out) ∧
    eval (n + 1) (.second (.tuple (.int 1 loc0) (.int 2 loc0) loc0) loc0) st out =
      (.error (.todo "second"), st, out) :=
  fun _ _ _ => ⟨rfl, rfl⟩

/-- Claim C3: the claim says `Let(x, v, Var(x))` returns `v` for every
runtime value including tuples.  For a Tuple value the code cannot
even build `v`: evaluating the Tuple literal hits the `todo!()` stub
on line 182 of src/main.rs, so `Let("x", Tuple(Int 1, Int 2),
Var("x"))` fails with the `todo` error instead of returning the tuple;
and the Tuple arm of the value copy in `get_var` is itself `todo!()`,
so even a tuple binding placed directly in a frame could not be
resolved. -/
theorem C3_theorem : ∀ (n : Nat) (st : CallStack) (out : String),
    eval (n + 2) (.let_ "x" (.tuple (.int 1 loc0) (.int 2 loc0) loc0) (.var "x" loc0) loc0) st out =
      (.error (.todo "tuple"), st, out) ∧
    ∀ xs, clone_value (.tuple xs) = .error (.todo "get_var_clone_tuple") :=
  fun _ _ _ => ⟨rfl, fun _ => rfl⟩

/-- Claim C4: variable resolution is a dynamic stack scan.  First
conjunct: if every frame more recent than `f` lacks the name and `f`
binds it to `v`, then `get_var` returns the copy of `v` — in
particular a binding of an ancestor frame is observed across any
intermediate frames that do not bind the name.  Second conjunct: the
copy is the identity on every non-tuple value (every value the
evaluator can produce).  Third conjunct: when no live frame binds the
name, resolution fails with the unbound-variable error. -/
theorem C4_theorem :
    (∀ (upper : CallStack) (f : Call) (lower : CallStack) (name : String) (v : RuntimeValue),
      (∀ g ∈ upper, scope_lookup g.var_scope name = none) →
      scope_lookup f.var_scope name = some v →
      get_var (upper ++ f :: lower) name = clone_value v) ∧
    (∀ v : RuntimeValue, v.isTuple = false → clone_value v = .ok v) ∧
    (∀ (st : CallStack) (name : String),
      (∀ g ∈ st, scope_lookup g.var_scope name = none) →
      get_var st name = .error (.unbound name)) := by
  refine ⟨?_, ?_, ?_⟩
  · intro upper
    induction upper with
    | nil =>
      intro f lower name v _ hf
      simp [get_var, hf]
    | cons g gs ih =>
      intro f lower name v hu hf
      have hg : scope_lookup g.var_scope name = none := hu g (List.mem_cons_self g gs)
      have hu2 : ∀ g ∈ gs, scope_lookup g.var_scope name = none :=
        fun x hx => hu x (List.mem_cons_of_mem g hx)
      simp only [List.cons_append, get_var, hg]
      exact ih f lower name v hu2 hf
  · intro v hv
    cases v with
    | tuple xs => simp [RuntimeValue.isTuple] at hv
    | int x => rfl
    | str x => rfl
    | bool x => rfl
    | function ps b l => rfl
    | void => rfl
  · intro st
    induction st with
    | nil => intro name _; rfl
    | cons g gs ih =>
      intro name hu
      have hg : scope_lookup g.var_scope name = none := hu g (List.mem_cons_self g gs)
      have hu2 : ∀ g ∈ gs, scope_lookup g.var_scope name = none :=
        fun x hx => hu x (List.mem_cons_of_mem g hx)
      simp only [get_var, hg]
      exact ih name hu2

/-- Claim C4, witness: on a two-frame stack whose root frame binds `x`
to 7 and whose most recent frame binds nothing, resolving `x` finds
the ancestor binding; on a stack binding nothing, resolution fails
with the unbound error. -/
theorem C4_witness :
    get_var [⟨none, [], loc0, []⟩, ⟨none, [], loc0, [("x", .int 7)]⟩] "x" = .ok (.int 7) ∧
    get_var [⟨none, [], loc0, []⟩] "x" = .error (.unbound "x") := by
  constructor
  · have h := C4_theorem.1 [⟨none, [], loc0, []⟩] ⟨none, [], loc0, [("x", .int 7)]⟩ [] "x" (.int 7)
      (by intro g hg; rw [List.mem_singleton.mp hg]; rfl) (by rfl)
    exact h.trans rfl
  · exact C4_theorem.2.2 [⟨none, [], loc0, []⟩] "x"
      (by intro g hg; rw [List.mem_singleton.mp hg]; rfl)

/-- Claim C5: the call protocol.  (1) A callee that is not a bare
`Var` fails with the callee-not-var error.  (2) A `Var` bound to a
non-function value fails with the not-a-function error.  (3) An
argument count different from the parameter count fails with the
arity error.  (4) With matching arity, once the arguments have been
evaluated (left to right, against the caller stack) into the scope,
the body is evaluated against the stack extended with the new frame
binding the parameters, and the frame is popped on success.  (5) The
argument loop evaluates the head argument against the current caller
stack and binds the head parameter to its value before recursing.
(6) The built scope maps each inserted parameter to its evaluated
argument value. -/
theorem C5_theorem :
    (∀ (n : Nat) (callee : Term) (args : List Term) (st : CallStack) (out : String),
      (∀ x l, callee ≠ .var x l) →
      call_fn (n + 1) callee args st out = (.error .calleeNotVar, st, out)) ∧
    (∀ (n : Nat) (name : String) (lc : Location) (args : List Term) (st : CallStack)
        (out : String) (v : RuntimeValue),
      get_var st name = .ok v → v.isFunction = false →
      call_fn (n + 1) (.var name lc) args st out = (.error (.notAFunction name), st, out)) ∧
    (∀ (n : Nat) (name : String) (lc : Location) (args : List Term) (st : CallStack)
        (out : String) (ps : List String) (b : Term) (fl : Location),
      get_var st name = .ok (.function ps b fl) → args.length ≠ ps.length →
      call_fn (n + 1) (.var name lc) args st out = (.error (.arity name), st, out)) ∧
    (∀ (n : Nat) (name : String) (lc : Location) (args : List Term) (st : CallStack)
        (out : String) (ps : List String) (b : Term) (fl : Location) (scope : Scope)
        (st1 : CallStack) (out1 : String),
      get_var st name = .ok (.function ps b fl) → args.length = ps.length →
      eval_args n args ps [] st out = (.ok scope, st1, out1) →
      call_fn (n + 1) (.var name lc) args st out =
        (match eval n b (call_frame args fl scope :: st1) out1 with
         | (.ok r, st3, out3) => (.ok r, st3.tail, out3)
         | (.error e, st3, out3) => (.error e, st3, out3))) ∧
    (∀ (n : Nat) (a : Term) (rest : List Term) (p : String) (ps : List String) (sc : Scope)
        (st : CallStack) (out : String) (v : RuntimeValue) (st1 : CallStack) (out1 : String),
      eval n a st out = (.ok v, st1, out1) →
      eval_args (n + 1) (a :: rest) (p :: ps) sc st out =
        eval_args n rest ps (scope_insert sc p v) st1 out1) ∧
    (∀ (sc : Scope) (p : String) (v : RuntimeValue),
      scope_lookup (scope_insert sc p v) p = some v) := by
  refine ⟨?_, ?_, ?_, ?_, ?_, ?_⟩
  · intro n callee args st out h
    cases callee with
    | var x l => exact absurd rfl (h x l)
    | int v l => rfl
    | str v l => rfl
    | bool v l => rfl
    | binary op a b l => rfl
    | if_ a b c l => rfl
    | let_ x a b l => rfl
    | function ps b l => rfl
    | call c as l => rfl
    | print a l => rfl
    | tuple a b l => rfl
    | first a l => rfl
    | second a l => rfl
    | error m ft l => rfl
  · intro n name lc args st out v hg hv
    cases v with
    | function ps b l => simp [RuntimeValue.isFunction] at hv
    | int x => simp [call_fn, hg]
    | str x => simp [call_fn, hg]
    | bool x => simp [call_fn, hg]
    | tuple xs => simp [call_fn, hg]
    | void => simp [call_fn, hg]
  · intro n name lc args st out ps b fl hg hne
    simp only [call_fn, hg]
    rw [if_pos hne]
  · intro n name lc args st out ps b fl scope st1 out1 hg hlen ha
    simp only [call_fn, hg]
    rw [if_neg (fun hne => hne hlen)]
    simp only [ha]
  · intro n a rest p ps sc st out v st1 out1 he
    simp only [eval_args, he]
  · intro sc p v
    simp [scope_insert, scope_lookup]

/-- Claim C5, witness: calling a 2-parameter function with 1 argument
fails with the arity error, through conjunct (3) of `C5_theorem`. -/
theorem C5_witness :
    call_fn 5 (.var "f" loc0) [.int 1 loc0]
      [⟨none, [], loc0, [("f", .function ["a", "b"] (.var "a" loc0) loc0)]⟩] "" =
      (.error (.arity "f"),
       [⟨none, [], loc0, [("f", .function ["a", "b"] (.var "a" loc0) loc0)]⟩], "") :=
  C5_theorem.2.2.1 4 "f" loc0 [.int 1 loc0]
    [⟨none, [], loc0, [("f", .function ["a", "b"] (.var "a" loc0) loc0)]⟩] ""
    ["a", "b"] (.var "a" loc0) loc0 (by rfl) (by decide)

/-- Claim C6: binary operators.  (1) Any non-Int operand fails with
the type mismatch error.  (2) Evaluating a binary node first evaluates
the left operand, then ALWAYS evaluates the right operand (with all
its effects) whatever the operator — no short-circuiting — and wraps
a successful operator result as an Int value.  (3) The six comparison
operators yield Int 1 or Int 0.  (4) The logic operators implement
nonzero-truth: `and` yields 1 exactly when both operands are nonzero,
`or` exactly when at least one is.  (5) On Int operands every operator
either produces an Int or fails with the division-by-zero error. -/
theorem C6_theorem :
    (∀ (op : BinaryOp) (l r : RuntimeValue), l.isInt = false ∨ r.isInt = false →
      eval_binary_op op l r = .error .typeMismatch) ∧
    (∀ (n : Nat) (op : BinaryOp) (tl tr : Term) (l : Location) (st : CallStack)
        (out : String) (lv : RuntimeValue) (st1 : CallStack) (o1 : String),
      eval n tl st out = (.ok lv, st1, o1) →
      eval (n + 1) (.binary op tl tr l) st out =
        (match eval n tr st1 o1 with
         | (.ok rv, st2, o2) =>
           (match eval_binary_op op lv rv with
            | .ok i => (.ok (.int i), st2, o2)
            | .error e => (.error e, st2, o2))
         | (.error e, st2, o2) => (.error e, st2, o2))) ∧
    (∀ a b : Int,
      eval_binary_op .eq (.int a) (.int b) = .ok (if a = b then 1 else 0) ∧
      eval_binary_op .neq (.int a) (.int b) = .ok (if a ≠ b then 1 else 0) ∧
      eval_binary_op .lt (.int a) (.int b) = .ok (if a < b then 1 else 0) ∧
      eval_binary_op .gt (.int a) (.int b) = .ok (if a > b then 1 else 0) ∧
      eval_binary_op .lte (.int a) (.int b) = .ok (if a ≤ b then 1 else 0) ∧
      eval_binary_op .gte (.int a) (.int b) = .ok (if a ≥ b then 1 else 0)) ∧
    (∀ a b : Int,
      eval_binary_op .and (.int a) (.int b) = .ok (if a ≠ 0 ∧ b ≠ 0 then 1 else 0) ∧
      eval_binary_op .or (.int a) (.int b) = .ok (if a ≠ 0 ∨ b ≠ 0 then 1 else 0)) ∧
    (∀ (op : BinaryOp) (a b : Int),
      (∃ i : Int, eval_binary_op op (.int a) (.int b) = .ok i) ∨
      eval_binary_op op (.int a) (.int b) = .error .divByZero) := by
  refine ⟨?_, ?_, ?_, ?_, ?_⟩
  · intro op l r h
    rcases h with h | h
    · cases l <;> first | rfl | (simp [RuntimeValue.isInt] at h)
    · cases l <;> cases r <;> first | rfl | (simp [RuntimeValue.isInt] at h)
  · intro n op tl tr l st out lv st1 o1 h
    simp only [eval, h]
  · intro a b
    exact ⟨rfl, rfl, rfl, rfl, rfl, rfl⟩
  · intro a b
    exact ⟨rfl, rfl⟩
  · intro op a b
    cases op with
    | add => exact Or.inl ⟨a + b, rfl⟩
    | sub => exact Or.inl ⟨a - b, rfl⟩
    | mul => exact Or.inl ⟨a * b, rfl⟩
    | div =>
      rcases eq_or_ne b 0 with rfl | hb
      · exact Or.inr (by simp [eval_binary_op])
      · exact Or.inl ⟨a.tdiv b, by simp [eval_binary_op, hb]⟩
    | rem =>
      rcases eq_or_ne b 0 with rfl | hb
      · exact Or.inr (by simp [eval_binary_op])
      · exact Or.inl ⟨a.tmod b, by simp [eval_binary_op, hb]⟩
    | eq => exact Or.inl ⟨_, rfl⟩
    | neq => exact Or.inl ⟨_, rfl⟩
    | lt => exact Or.inl ⟨_, rfl⟩
    | gt => exact Or.inl ⟨_, rfl⟩
    | lte => exact Or.inl ⟨_, rfl⟩
    | gte => exact Or.inl ⟨_, rfl⟩
    | and => exact Or.inl ⟨_, rfl⟩
    | or => exact Or.inl ⟨_, rfl⟩

/-- Claim C6, witness: a string left operand fails with the type
mismatch error, through conjunct (1) of `C6_theorem`. -/
theorem C6_witness :
    eval_binary_op .add (.str "s") (.int 1) = .error .typeMismatch :=
  C6_theorem.1 .add (.str "s") (.int 1) (Or.inl rfl)

/-- Claim C7: for every pair of integers a and b with b nonzero,
`Binary(Div, Int a, Int b)` evaluates to the Int of the truncating
(toward zero) quotient and `Binary(Rem, Int a, Int b)` to the Int of
the truncating remainder, for every fuel, stack and output. -/
theorem C7_theorem : ∀ (n : Nat) (a b : Int) (l1 l2 l3 : Location) (st : CallStack)
    (out : String), b ≠ 0 →
    eval (n + 2) (.binary .div (.int a l1) (.int b l2) l3) st out =
      (.ok (.int (a.tdiv b)), st, out) ∧
    eval (n + 2) (.binary .rem (.int a l1) (.int b l2) l3) st out =
      (.ok (.int (a.tmod b)), st, out) := by
  intro n a b l1 l2 l3 st out hb
  constructor
  · simp only [eval, eval_binary_op]
    rw [if_neg hb]
  · simp only [eval, eval_binary_op]
    rw [if_neg hb]

/-- Claim C7, witness: 7 divided by 2 evaluates to 3 and 7 rem 2
to 1. -/
theorem C7_witness :
    eval 2 (.binary .div (.int 7 loc0) (.int 2 loc0) loc0) [] "" =
      (.ok (.int (Int.tdiv 7 2)), [], "") ∧
    eval 2 (.binary .rem (.int 7 loc0) (.int 2 loc0) loc0) [] "" =
      (.ok (.int (Int.tmod 7 2)), [], "") :=
  C7_theorem 0 7 2 loc0 loc0 loc0 [] "" (by decide)

/-- Claim C8: the conditional.  (1) A Bool condition branches on the
flag, and only the selected branch is evaluated (the result, stack and
output are those of evaluating that branch alone).  (2) An Int
condition treats nonzero as true and zero as false, again evaluating
only the selected branch.  (3) In particular an Int 5 condition
selects the then branch and an Int 0 condition the otherwise branch.
(4) A condition of any other value shape fails with the
condition-not-boolean type mismatch. -/
theorem C8_theorem :
    (∀ (n : Nat) (c tb eb : Term) (l : Location) (st : CallStack) (out : String)
        (b : Bool) (st1 : CallStack) (o1 : String),
      eval n c st out = (.ok (.bool b), st1, o1) →
      eval (n + 1) (.if_ c tb eb l) st out =
        if b then eval n tb st1 o1 else eval n eb st1 o1) ∧
    (∀ (n : Nat) (c tb eb : Term) (l : Location) (st : CallStack) (out : String)
        (y : Int) (st1 : CallStack) (o1 : String),
      eval n c st out = (.ok (.int y), st1, o1) →
      eval (n + 1) (.if_ c tb eb l) st out =
        if y ≠ 0 then eval n tb st1 o1 else eval n eb st1 o1) ∧
    (∀ (n : Nat) (tb eb : Term) (l1 l2 : Location) (st : CallStack) (out : String),
      eval (n + 2) (.if_ (.int 5 l1) tb eb l2) st out = eval (n + 1) tb st out ∧
      eval (n + 2) (.if_ (.int 0 l1) tb eb l2) st out = eval (n + 1) eb st out) ∧
    (∀ (n : Nat) (c tb eb : Term) (l : Location) (st : CallStack) (out : String)
        (v : RuntimeValue) (st1 : CallStack) (o1 : String),
      eval n c st out = (.ok v, st1, o1) → v.isBool = false → v.isInt = false →
      eval (n + 1) (.if_ c tb eb l) st out = (.error .condNotBool, st1, o1)) := by
  refine ⟨?_, ?_, ?_, ?_⟩
  · intro n c tb eb l st out b st1 o1 h
    simp only [eval, h]
  · intro n c tb eb l st out y st1 o1 h
    simp only [eval, h]
  · intro n tb eb l1 l2 st out
    constructor
    · simp only [eval]
      rw [if_pos (by decide : (5 : Int) ≠ 0)]
    · simp only [eval]
      rw [if_neg (by decide : ¬ (0 : Int) ≠ 0)]
  · intro n c tb eb l st out v st1 o1 h hb hi
    cases v with
    | bool b => simp [RuntimeValue.isBool] at hb
    | int y => simp [RuntimeValue.isInt] at hi
    | str s => simp only [eval, h]
    | tuple xs => simp only [eval, h]
    | function ps b lf => simp only [eval, h]
    | void => simp only [eval, h]

/-- Claim C8, witness: a true Bool condition selects the then branch,
through conjunct (1) of `C8_theorem`. -/
theorem C8_witness :
    eval 2 (.if_ (.bool true loc0) (.int 1 loc0) (.int 2 loc0) loc0) [] "" =
      if true then eval 1 (.int 1 loc0) [] "" else eval 1 (.int 2 loc0) [] "" :=
  C8_theorem.1 1 (.bool true loc0) (.int 1 loc0) (.int 2 loc0) loc0 [] "" true [] "" (by rfl)

/-- Claim C9: when the callee resolves to a function whose parameter
count differs from the argument count, the call fails with the arity
error with the stack AND the console output unchanged — the arity
check fires before any argument is evaluated, so none of the argument
effects happen and no binding changes. -/
theorem C9_theorem : ∀ (n : Nat) (name : String) (lc lc2 : Location) (args : List Term)
    (st : CallStack) (out : String) (ps : List String) (b : Term) (fl : Location),
    get_var st name = .ok (.function ps b fl) → args.length ≠ ps.length →
    eval (n + 2) (.call (.var name lc) args lc2) st out = (.error (.arity name), st, out) := by
  intro n name lc lc2 args st out ps b fl hg hne
  simp only [eval, call_fn, hg]
  rw [if_pos hne]

/-- Claim C9, witness: calling a 2-parameter function with a single
`Print("boom")` argument fails with the arity error and the output
stays empty — the print side effect never happens. -/
theorem C9_witness :
    eval 9 (.call (.var "f" loc0) [.print (.str "boom" loc0) loc0] loc0)
      [⟨none, [], loc0, [("f", .function ["a", "b"] (.var "a" loc0) loc0)]⟩] "" =
      (.error (.arity "f"),
       [⟨none, [], loc0, [("f", .function ["a", "b"] (.var "a" loc0) loc0)]⟩], "") :=
  C9_theorem 7 "f" loc0 loc0 [.print (.str "boom" loc0) loc0]
    [⟨none, [], loc0, [("f", .function ["a", "b"] (.var "a" loc0) loc0)]⟩] ""
    ["a", "b"] (.var "a" loc0) loc0 (by rfl) (by decide)

/-- Claim C10: for every integer a, `Binary(Div, Int a, Int 0)` and
`Binary(Rem, Int a, Int 0)` fail with the division-by-zero error (the
unguarded host panic) instead of yielding any Int, for every fuel,
stack and output. -/
theorem C10_theorem : ∀ (n : Nat) (a : Int) (l1 l2 l3 : Location) (st : CallStack)
    (out : String),
    eval (n + 2) (.binary .div (.int a l1) (.int 0 l2) l3) st out =
      (.error .divByZero, st, out) ∧
    eval (n + 2) (.binary .rem (.int a l1) (.int 0 l2) l3) st out =
      (.error .divByZero, st, out) := by
  intro n a l1 l2 l3 st out
  constructor
  · simp [eval, eval_binary_op]
  · simp [eval, eval_binary_op]

end Caramuru
